import Mathlib

/-!
Shallow embedding of `src/main.ts` of the syncable-donation-notifier
repository: a Google Apps Script that scans Gmail for donation emails,
extracts donation details by regular-expression matching, posts a Slack
notification, appends a row to a Google Sheet, and marks the message read
when every configured sink succeeded.

Pure string code (DateUtils.normalize, GmailService.extractDonationDetails)
is embedded as executable Lean functions over `List Char`, modelling the
exact JavaScript regex semantics (leftmost match, greedy quantifiers with
backtracking) of the concrete patterns in the source.  The side-effecting
orchestration (SlackService, SheetsService, DonationNotifierApp) is embedded
as trace-producing functions: each procedure returns the list of external
events it performs together with a Bool that is true iff the procedure
propagates an exception to its caller.  External API outcomes (mailbox
search, URL fetch, spreadsheet open/append, `new Date` parsing) are supplied
by an `Env` of oracles.
-/

namespace SyncableDonation

/-! ## JavaScript character classes

`\s` in a JavaScript regex (and `String.prototype.trim`) matches exactly the
WhiteSpace and LineTerminator code points; `.` (without the `s` flag) matches
everything except a LineTerminator; `\d` is `[0-9]`. -/

def isLineTerm (c : Char) : Bool :=
  c = '\n' || c = '\r' || c = '\u2028' || c = '\u2029'

def isJsWs (c : Char) : Bool :=
  c = ' ' || c = '\t' || c = '\n' || c = '\u000b' || c = '\u000c' || c = '\r' ||
  c = '\u00a0' || c = '\u1680' || ('\u2000' ≤ c && c ≤ '\u200a') ||
  c = '\u2028' || c = '\u2029' || c = '\u202f' || c = '\u205f' ||
  c = '\u3000' || c = '\ufeff'

/-- `String.prototype.trim`: strips `\s` characters from both ends. -/
def jsTrim (l : List Char) : List Char :=
  ((l.dropWhile isJsWs).reverse.dropWhile isJsWs).reverse

/-! ## DateUtils.normalize

Embeds `dateString.match(/(\d{4})\/(\d{1,2})\/(\d{1,2})\s+(\d{1,2}):(\d{1,2}):(\d{1,2})/)`
followed by zero-padding of the five short captures.  The JS engine scans for
the leftmost starting position at which the pattern matches; at a given
position each quantifier is greedy, and because every `\d{1,2}` here is
followed by a delimiter (`/`, `:`, `\s`) disjoint from `\d`, backtracking
inside one position can never succeed, so the match at a position is the
greedy one or a failure. -/

/-- The six captures of the date regex. -/
structure DateParts where
  year : List Char
  month : List Char
  day : List Char
  hour : List Char
  minute : List Char
  second : List Char
deriving DecidableEq, Repr

/-- `(\d{1,2})` followed by the literal non-digit delimiter `delim`;
returns the capture and the remainder after the delimiter. -/
def matchField2 (delim : Char) : List Char → Option (List Char × List Char)
  | a :: b :: rest =>
    if a.isDigit then
      if b.isDigit then
        match rest with
        | c :: rest2 => if c = delim then some ([a, b], rest2) else none
        | [] => none
      else if b = delim then some ([a], rest) else none
    else none
  | _ => none

/-- `(\d{1,2})` followed by `\s+` (greedy); returns the capture and the
remainder after the whitespace run. -/
def matchField2Ws : List Char → Option (List Char × List Char)
  | a :: b :: rest =>
    if a.isDigit then
      if b.isDigit then
        match rest with
        | c :: rest2 => if isJsWs c then some ([a, b], rest2.dropWhile isJsWs) else none
        | [] => none
      else if isJsWs b then some ([a], rest.dropWhile isJsWs) else none
    else none
  | _ => none

/-- `(\d{1,2})` at the end of the pattern: greedily takes up to two digits. -/
def matchField2End : List Char → Option (List Char)
  | a :: b :: _ =>
    if a.isDigit then (if b.isDigit then some [a, b] else some [a]) else none
  | [a] => if a.isDigit then some [a] else none
  | [] => none

/-- Attempt the whole date pattern at the start of `t`. -/
def matchAt (t : List Char) : Option DateParts :=
  match t with
  | y1 :: y2 :: y3 :: y4 :: s1 :: rest =>
    if y1.isDigit && y2.isDigit && y3.isDigit && y4.isDigit && s1 = '/' then
      match matchField2 '/' rest with
      | some (mo, r1) =>
        match matchField2Ws r1 with
        | some (dy, r2) =>
          match matchField2 ':' r2 with
          | some (hr, r3) =>
            match matchField2 ':' r3 with
            | some (mi, r4) =>
              match matchField2End r4 with
              | some se => some ⟨[y1, y2, y3, y4], mo, dy, hr, mi, se⟩
              | none => none
            | none => none
          | none => none
        | none => none
      | none => none
    else none
  | _ => none

/-- Leftmost match of the date pattern anywhere in the string. -/
def findMatch : List Char → Option DateParts
  | [] => none
  | c :: cs =>
    match matchAt (c :: cs) with
    | some m => some m
    | none => findMatch cs

/-- `String.prototype.padStart(2, '0')`. -/
def padStart2 (l : List Char) : List Char :=
  List.replicate (2 - l.length) '0' ++ l

/-- The template string
`${year}/${month.padStart(2,'0')}/${day.padStart(2,'0')} ${hour.padStart(2,'0')}:${minute.padStart(2,'0')}:${second.padStart(2,'0')}`. -/
def formatParts (m : DateParts) : List Char :=
  m.year ++ '/' :: padStart2 m.month ++ '/' :: padStart2 m.day ++
    ' ' :: padStart2 m.hour ++ ':' :: padStart2 m.minute ++ ':' :: padStart2 m.second

/-- `DateUtils.normalize`. -/
def normalize (s : String) : String :=
  match findMatch s.toList with
  | none => s
  | some m => String.mk (formatParts m)

/-! ## GmailService.extractDonationDetails

The four patterns are
`支援受付日時:\s*(.+)`, `支援付者名:\s*(.+)`, `支援金額:\s*([\d,]+)\s*円`,
`支援頻度:\s*(.+)`, each searched (unanchored) in the message body.  For the
`\s*(.+)` tail: the whitespace run is consumed greedily, and when `.+` cannot
start at the remainder (end of string or a line terminator) the engine
backtracks `\s*` one character at a time; `.` accepts a non-line-terminator
whitespace character, so the capture may begin inside the whitespace run. -/

/-- Maximal run of `.`-matching characters. -/
def dotRun (t : List Char) : List Char :=
  t.takeWhile (fun c => !isLineTerm c)

/-- Try `(.+)` after a `\s*` of length `k`, backtracking `k` downward. -/
def tryCapture (t : List Char) : Nat → Option (List Char)
  | 0 =>
    match t with
    | c :: rest => if isLineTerm c then none else some (c :: dotRun rest)
    | [] => none
  | Nat.succ k =>
    match t.drop (Nat.succ k) with
    | c :: rest => if isLineTerm c then tryCapture t k else some (c :: dotRun rest)
    | [] => tryCapture t k

/-- `\s*(.+)` immediately after the label. -/
def matchLabeledLine (t : List Char) : Option (List Char) :=
  tryCapture t (t.takeWhile isJsWs).length

def isAmountChar (c : Char) : Bool := c.isDigit || c = ','

/-- `\s*([\d,]+)\s*円` immediately after the label.  All quantifiers are
greedy and no backtracking alternative can succeed because `\s`, `[\d,]`
and `円` are pairwise disjoint. -/
def matchAmountTail (t : List Char) : Option (List Char) :=
  let t1 := t.dropWhile isJsWs
  let cap := t1.takeWhile isAmountChar
  if cap.isEmpty then none
  else
    match (t1.dropWhile isAmountChar).dropWhile isJsWs with
    | c :: _ => if c = '円' then some cap else none
    | [] => none

/-- Unanchored leftmost search: at each position where the literal label is a
prefix, try the tail matcher; on failure resume the scan one position on. -/
def scanFor (label : List Char) (tail : List Char → Option (List Char)) :
    List Char → Option (List Char)
  | [] => none
  | c :: cs =>
    if label.isPrefixOf (c :: cs) then
      match tail ((c :: cs).drop label.length) with
      | some cap => some cap
      | none => scanFor label tail cs
    else scanFor label tail cs

def dateLabel : List Char := "支援受付日時:".toList
def nameLabel : List Char := "支援付者名:".toList
def amountLabel : List Char := "支援金額:".toList
def freqLabel : List Char := "支援頻度:".toList

def searchDate (body : List Char) : Option (List Char) :=
  scanFor dateLabel matchLabeledLine body
def searchName (body : List Char) : Option (List Char) :=
  scanFor nameLabel matchLabeledLine body
def searchAmount (body : List Char) : Option (List Char) :=
  scanFor amountLabel matchAmountTail body
def searchFreq (body : List Char) : Option (List Char) :=
  scanFor freqLabel matchLabeledLine body

/-- Numeric value of a digit string (the successful case of `parseInt`). -/
def digitsToNat (l : List Char) : Nat :=
  l.foldl (fun acc c => acc * 10 + (c.toNat - 48)) 0

/-- `parseInt(s, 10)`: skips leading whitespace, an optional sign, then the
maximal digit run (trailing junk ignored); NaN — here `none` — when the digit
run is empty. -/
def parseIntDec (s : List Char) : Option Int :=
  let s1 := s.dropWhile isJsWs
  match s1 with
  | [] => none
  | c :: rest =>
    if c = '-' then
      let ds := rest.takeWhile Char.isDigit
      if ds.isEmpty then none else some (-(digitsToNat ds : Int))
    else if c = '+' then
      let ds := rest.takeWhile Char.isDigit
      if ds.isEmpty then none else some (digitsToNat ds : Int)
    else
      let ds := s1.takeWhile Char.isDigit
      if ds.isEmpty then none else some (digitsToNat ds : Int)

/-- `name.split(/\s{2,}/)[0]`: the prefix before the first two consecutive
whitespace characters. -/
def takeBeforeDoubleWs : List Char → List Char
  | [] => []
  | [a] => [a]
  | a :: b :: rest =>
    if isJsWs a && isJsWs b then [] else a :: takeBeforeDoubleWs (b :: rest)

/-- `frequency.split(' ')[0]`: the prefix before the first space. -/
def takeBeforeSpace (l : List Char) : List Char :=
  l.takeWhile (fun c => c ≠ ' ')

structure DonationDetails where
  date : String
  name : String
  amount : Int
  frequency : String
deriving DecidableEq, Repr

/-- `GmailService.extractDonationDetails`. -/
def extractDonationDetails (body : String) : Option DonationDetails :=
  let bs := body.toList
  match searchDate bs, searchName bs, searchAmount bs, searchFreq bs with
  | some dm, some nm, some am, some fm =>
    let rawDate := jsTrim dm
    let normalizedDate := normalize (String.mk rawDate)
    let amountString := jsTrim am
    match parseIntDec (amountString.filter (fun c => c ≠ ',')) with
    | none => none
    | some amount =>
      some ⟨normalizedDate,
            String.mk (jsTrim (takeBeforeDoubleWs nm)),
            amount,
            String.mk (jsTrim (takeBeforeSpace fm))⟩
  | _, _, _, _ => none

/-! ## Configuration -/

structure AppConfig where
  slackWebhookUrl : Option String
  spreadsheetId : Option String
  sheetName : Option String
deriving DecidableEq, Repr

/-- JS truthiness of a `string | null` value: `null` and `""` are falsy. -/
def truthy : Option String → Bool
  | none => false
  | some s => !(s == "")

/-- `ConfigService.isConfigValid`. -/
def isConfigValid (c : AppConfig) : Bool := truthy c.slackWebhookUrl

/-- `ConfigService.isSheetsConfigValid`. -/
def isSheetsConfigValid (c : AppConfig) : Bool :=
  truthy c.spreadsheetId && truthy c.sheetName

/-- `initializeServices`: a SlackService is constructed iff the webhook URL
is truthy. -/
def slackServiceOf (c : AppConfig) : Option String :=
  match c.slackWebhookUrl with
  | some url => if url == "" then none else some url
  | none => none

/-- `initializeServices`: a SheetsService is constructed iff both sheets
settings are truthy. -/
def sheetsServiceOf (c : AppConfig) : Option (String × String) :=
  match c.spreadsheetId, c.sheetName with
  | some sid, some sn => if sid == "" || sn == "" then none else some (sid, sn)
  | _, _ => none

/-! ## External world and event traces -/

structure Message where
  id : String
  body : String
deriving DecidableEq, Repr

structure SheetState where
  lastRow : Nat
deriving DecidableEq, Repr

/-- A spreadsheet cell value: `appendRow` receives a Date, a string or a
number. -/
inductive Cell where
  | dateV (epochMillis : Int)
  | strV (s : String)
  | numV (n : Int)
deriving DecidableEq, Repr

/-- Observable external effects of one run. -/
inductive Event where
  | search (query : String)
  | notifyPost (url : String) (date : String) (amountText : String) (frequency : String)
  | appendRow (row : List Cell)
  | markRead (id : String)
  | logInfo (s : String)
  | logWarn (s : String)
  | logError (s : String)
deriving DecidableEq, Repr

/-- Oracles for every external API outcome of the run.  The error text that
JavaScript interpolates into log lines is elided (the model keeps the static
part of each log message). -/
structure Env where
  config : AppConfig
  /-- `GmailApp.search` + `getMessagesForThreads(...).flat()`: the flat
  message list, or a thrown exception. -/
  searchResult : Except Unit (List Message)
  /-- `message.getPlainBody()` / `getId()` throws for this message id. -/
  msgFails : String → Bool
  /-- `UrlFetchApp.fetch` throws for this notification. -/
  slackFails : String → Int → String → Bool
  /-- `SpreadsheetApp.openById` throws. -/
  openFails : Bool
  /-- `spreadsheet.getSheetByName(sheetName)` result. -/
  sheetByName : Option SheetState
  /-- `new Date(dateString)`: epoch milliseconds, or `none` when invalid. -/
  jsDateOf : String → Option Int
  /-- `sheet.appendRow(row)` throws for this row. -/
  appendFails : List Cell → Bool
  /-- `GmailApp.getMessageById(id).markRead()` throws. -/
  markReadFails : String → Bool

def SEARCH_QUERY : String :=
  "subject:\"【Syncable】新規の支援を受け付けました。\" is:unread"

/-- `Number.prototype.toLocaleString()` for a non-negative integer under the
default locale: decimal digits grouped in threes by commas. -/
def groupRev : List Char → Nat → List Char
  | [], _ => []
  | c :: cs, n =>
    if n == 3 then ',' :: c :: groupRev cs 1 else c :: groupRev cs (n + 1)

def toLocaleStringInt (n : Int) : String :=
  if n < 0 then
    String.mk ('-' :: (groupRev (toString (-n)).toList.reverse 0).reverse)
  else
    String.mk (groupRev (toString n).toList.reverse 0).reverse

/-! ## SlackService -/

/-- `SlackService.sendDonationNotification`: builds the payload, issues the
POST; on failure logs and rethrows. -/
def sendDonationNotification (env : Env) (url : String)
    (date : String) (amount : Int) (frequency : String) : List Event × Bool :=
  let post := Event.notifyPost url date (toLocaleStringInt amount ++ "円") frequency
  if env.slackFails date amount frequency then
    ([post, Event.logError "Slackへの通知に失敗しました"], true)
  else
    ([post, Event.logInfo ("Slack通知を送信しました: " ++ date ++ ", " ++
        toString amount ++ "円, " ++ frequency)], false)

/-! ## SheetsService -/

/-- `SheetsService.getSheet`: an `openById` failure is caught and logged,
yielding `null`; otherwise the `getSheetByName` result. -/
def getSheet (env : Env) : List Event × Option SheetState :=
  if env.openFails then
    ([Event.logError "Google Sheetsの取得に失敗しました"], none)
  else
    ([], env.sheetByName)

def headerRow : List Cell :=
  [Cell.strV "日時", Cell.strV "寄付者名", Cell.strV "金額", Cell.strV "頻度"]

/-- `SheetsService.ensureHeaders`: appends the header when the sheet exists
and has zero rows; every error is caught inside, so it never throws. -/
def ensureHeaders (env : Env) : List Event × Bool :=
  let (es, sh) := getSheet env
  match sh with
  | none => (es, false)
  | some sheet =>
    if sheet.lastRow == 0 then
      if env.appendFails headerRow then
        (es ++ [Event.appendRow headerRow,
                Event.logError "ヘッダーの確認/追加に失敗しました"], false)
      else
        (es ++ [Event.appendRow headerRow, Event.logInfo "ヘッダーを追加しました"], false)
    else (es, false)

/-- `SheetsService.recordDonation`: a missing sheet or a failing append is
logged and rethrown (the Bool is true). -/
def recordDonation (env : Env) (date : String) (name : String)
    (amount : Int) (frequency : String) : List Event × Bool :=
  let (es, sh) := getSheet env
  match sh with
  | none => (es ++ [Event.logError "Google Sheetsへの記録に失敗しました"], true)
  | some _ =>
    let dateValue :=
      match env.jsDateOf date with
      | some t => Cell.dateV t
      | none => Cell.strV date
    let row := [dateValue, Cell.strV name, Cell.numV amount, Cell.strV frequency]
    if env.appendFails row then
      (es ++ [Event.appendRow row,
              Event.logError "Google Sheetsへの記録に失敗しました"], true)
    else
      (es ++ [Event.appendRow row,
              Event.logInfo ("Google Sheetsに記録しました: " ++ name ++ ", " ++
                toString amount ++ "円")], false)

/-! ## DonationNotifierApp -/

/-- `DonationNotifierApp.processDonation`: notify (when configured), then
record (when configured), then mark read; any throw is caught and logged, so
the procedure itself never propagates. -/
def processDonation (env : Env) (slackSvc : Option String)
    (sheetsSvc : Option (String × String)) (d : DonationDetails)
    (messageId : String) : List Event × Bool :=
  let pre := [Event.logInfo ("寄付情報を処理中: " ++ d.date ++ ", " ++ d.name ++
      ", " ++ toString d.amount ++ "円, " ++ d.frequency)]
  let errLog := Event.logError
      ("寄付情報の処理中にエラーが発生しました (messageId: " ++ messageId ++ ")")
  let (es1, t1) :=
    match slackSvc with
    | some url => sendDonationNotification env url d.date d.amount d.frequency
    | none => ([], false)
  if t1 then (pre ++ es1 ++ [errLog], false)
  else
    let (es2, t2) :=
      match sheetsSvc with
      | some _ => recordDonation env d.date d.name d.amount d.frequency
      | none => ([], false)
    if t2 then (pre ++ es1 ++ es2 ++ [errLog], false)
    else if env.markReadFails messageId then
      (pre ++ es1 ++ es2 ++ [Event.markRead messageId, errLog], false)
    else
      (pre ++ es1 ++ es2 ++
        [Event.markRead messageId,
         Event.logInfo ("寄付情報の処理が完了しました (messageId: " ++ messageId ++ ")")],
       false)

/-- One iteration of the `GmailService.processNewDonations` loop: the whole
body is inside try/catch, so a per-message failure yields only an error log. -/
def processOneMessage (env : Env)
    (cb : DonationDetails → String → List Event × Bool) (m : Message) : List Event :=
  if env.msgFails m.id then
    [Event.logError "メッセージ処理中にエラーが発生しました"]
  else
    match extractDonationDetails m.body with
    | some d =>
      let (es, t) := cb d m.id
      if t then es ++ [Event.logError "メッセージ処理中にエラーが発生しました"] else es
    | none =>
      [Event.logWarn ("寄付情報の抽出に失敗しました (messageId: " ++ m.id ++ ")")]

def processMessages (env : Env)
    (cb : DonationDetails → String → List Event × Bool) : List Message → List Event
  | [] => []
  | m :: rest => processOneMessage env cb m ++ processMessages env cb rest

/-- `GmailService.processNewDonations`: the search itself may throw (the Bool
is true); the per-message loop never does. -/
def processNewDonations (env : Env)
    (cb : DonationDetails → String → List Event × Bool) : List Event × Bool :=
  match env.searchResult with
  | Except.error _ => ([Event.search SEARCH_QUERY], true)
  | Except.ok msgs => (Event.search SEARCH_QUERY :: processMessages env cb msgs, false)

/-- `DonationNotifierApp.checkForNewDonations` (the method): gate on the
webhook URL, then scan; a scan throw is caught and logged. -/
def checkForNewDonations (env : Env) : List Event × Bool :=
  if !isConfigValid env.config then
    ([Event.logWarn "Slack Webhook URL が設定されていません"], false)
  else
    let slackSvc := slackServiceOf env.config
    let sheetsSvc := sheetsServiceOf env.config
    let (es, t) :=
      processNewDonations env (fun d mid => processDonation env slackSvc sheetsSvc d mid)
    if t then
      (Event.logInfo "新規寄付通知のチェックを開始します" ::
        es ++ [Event.logError "寄付通知のチェック中にエラーが発生しました"], false)
    else
      (Event.logInfo "新規寄付通知のチェックを開始します" ::
        es ++ [Event.logInfo "寄付通知のチェックが完了しました"], false)

/-- The global `checkForNewDonations()` entry point: constructs the app
(running `ensureHeaders` when the sheets service is configured) and then
runs the method. -/
def runApp (env : Env) : List Event × Bool :=
  let (es0, _) :=
    match sheetsServiceOf env.config with
    | some _ => ensureHeaders env
    | none => ([], false)
  let (es, t) := checkForNewDonations env
  (es0 ++ es, t)

/-! ## Auxiliary predicates for the date-pattern captures -/

/-- A `(\d{1,2})` capture: one or two decimal digits. -/
def goodField (l : List Char) : Prop :=
  l ≠ [] ∧ l.length ≤ 2 ∧ l.all Char.isDigit = true

/-- A `(\d{4})` capture: exactly four decimal digits. -/
def goodYear (l : List Char) : Prop :=
  l.length = 4 ∧ l.all Char.isDigit = true

instance (l : List Char) : Decidable (goodField l) := by
  unfold goodField; infer_instance

instance (l : List Char) : Decidable (goodYear l) := by
  unfold goodYear; infer_instance

/-! ## Character-class facts -/

theorem digit_not_ws {c : Char} (h : c.isDigit = true) : isJsWs c = false := by
  simp only [Char.isDigit, Bool.and_eq_true, decide_eq_true_eq] at h
  obtain ⟨h1, h2⟩ := h
  by_contra hw
  rw [Bool.not_eq_false] at hw
  simp only [isJsWs, Bool.or_eq_true, decide_eq_true_eq, Bool.and_eq_true] at hw
  casesm* _ ∨ _, _ ∧ _
  all_goals try (subst_vars; exact absurd (And.intro h1 h2) (by decide))
  all_goals
    (rename_i h3 h4
     have h9 : c ≤ '9' := (@Char.le_def c '9').mpr h2
     exact absurd (le_trans h3 h9) (by decide))

theorem amountChar_not_ws {c : Char} (h : isAmountChar c = true) : isJsWs c = false := by
  simp only [isAmountChar, Bool.or_eq_true, decide_eq_true_eq] at h
  rcases h with h | rfl
  · exact digit_not_ws h
  · decide

theorem dropWhile_ws_cons_digit (a : Char) (tl : List Char) (ha : a.isDigit = true) :
    (a :: tl).dropWhile isJsWs = a :: tl := by
  simp [List.dropWhile_cons, digit_not_ws ha]

/-! ## Matching the date pattern against a string of pattern shape -/

theorem matchField2_app {delim : Char} (hd : delim.isDigit = false)
    (ds rest : List Char) (hf : goodField ds) :
    matchField2 delim (ds ++ delim :: rest) = some (ds, rest) := by
  obtain ⟨hne, hlen, hall⟩ := hf
  rcases ds with _ | ⟨a, _ | ⟨b, _ | ⟨c, tl⟩⟩⟩
  · exact absurd rfl hne
  · simp only [List.all_cons, List.all_nil, Bool.and_eq_true] at hall
    simp [matchField2, hall.1, hd]
  · simp only [List.all_cons, List.all_nil, Bool.and_eq_true] at hall
    simp [matchField2, hall.1, hall.2.1]
  · simp at hlen

theorem matchField2Ws_app {w : Char} (hw : isJsWs w = true)
    (ds rest : List Char) (hf : goodField ds) :
    matchField2Ws (ds ++ w :: rest) = some (ds, rest.dropWhile isJsWs) := by
  obtain ⟨hne, hlen, hall⟩ := hf
  have hwd : w.isDigit = false := by
    by_contra h
    rw [Bool.not_eq_false] at h
    rw [digit_not_ws h] at hw
    exact Bool.false_ne_true hw
  rcases ds with _ | ⟨a, _ | ⟨b, _ | ⟨c, tl⟩⟩⟩
  · exact absurd rfl hne
  · simp only [List.all_cons, List.all_nil, Bool.and_eq_true] at hall
    simp [matchField2Ws, hall.1, hw, hwd]
  · simp only [List.all_cons, List.all_nil, Bool.and_eq_true] at hall
    simp [matchField2Ws, hall.1, hall.2.1, hw]
  · simp at hlen

theorem matchField2End_app (ds : List Char) (hf : goodField ds) :
    matchField2End ds = some ds := by
  obtain ⟨hne, hlen, hall⟩ := hf
  rcases ds with _ | ⟨a, _ | ⟨b, _ | ⟨c, tl⟩⟩⟩
  · exact absurd rfl hne
  · simp only [List.all_cons, List.all_nil, Bool.and_eq_true] at hall
    simp [matchField2End, hall.1]
  · simp only [List.all_cons, List.all_nil, Bool.and_eq_true] at hall
    simp [matchField2End, hall.1, hall.2.1]
  · simp at hlen

theorem goodField_head_digit {l : List Char} (hf : goodField l) :
    ∃ a tl, l = a :: tl ∧ a.isDigit = true := by
  obtain ⟨hne, hlen, hall⟩ := hf
  rcases l with _ | ⟨a, tl⟩
  · exact absurd rfl hne
  · simp only [List.all_cons, Bool.and_eq_true] at hall
    exact ⟨a, tl, rfl, hall.1⟩

theorem goodField_cases {l : List Char} (hf : goodField l) :
    (∃ a, l = [a] ∧ a.isDigit = true) ∨
    (∃ a b, l = [a, b] ∧ a.isDigit = true ∧ b.isDigit = true) := by
  obtain ⟨hne, hlen, hall⟩ := hf
  rcases l with _ | ⟨a, _ | ⟨b, _ | ⟨c, tl⟩⟩⟩
  · exact absurd rfl hne
  · simp only [List.all_cons, List.all_nil, Bool.and_eq_true] at hall
    exact Or.inl ⟨a, rfl, hall.1⟩
  · simp only [List.all_cons, List.all_nil, Bool.and_eq_true] at hall
    exact Or.inr ⟨a, b, rfl, hall.1, hall.2.1⟩
  · simp at hlen

theorem matchAt_pattern (y1 y2 y3 y4 : Char) (mo dy hr mi se : List Char)
    (hy1 : y1.isDigit = true) (hy2 : y2.isDigit = true)
    (hy3 : y3.isDigit = true) (hy4 : y4.isDigit = true)
    (hmo : goodField mo) (hdy : goodField dy) (hhr : goodField hr)
    (hmi : goodField mi) (hse : goodField se) :
    matchAt ([y1, y2, y3, y4] ++ '/' :: mo ++ '/' :: dy ++ ' ' :: hr ++ ':' :: mi ++ ':' :: se)
      = some ⟨[y1, y2, y3, y4], mo, dy, hr, mi, se⟩ := by
  rcases goodField_cases hmo with ⟨a1, rfl, ha1⟩ | ⟨a1, b1, rfl, ha1, hb1⟩ <;>
  rcases goodField_cases hdy with ⟨a2, rfl, ha2⟩ | ⟨a2, b2, rfl, ha2, hb2⟩ <;>
  rcases goodField_cases hhr with ⟨a3, rfl, ha3⟩ | ⟨a3, b3, rfl, ha3, hb3⟩ <;>
  rcases goodField_cases hmi with ⟨a4, rfl, ha4⟩ | ⟨a4, b4, rfl, ha4, hb4⟩ <;>
  rcases goodField_cases hse with ⟨a5, rfl, ha5⟩ | ⟨a5, b5, rfl, ha5, hb5⟩ <;>
  simp [matchAt, matchField2, matchField2Ws, matchField2End, List.dropWhile,
    show isJsWs ' ' = true from by decide, digit_not_ws ha3, *]

theorem findMatch_cons_of_matchAt {c : Char} {cs : List Char} {m : DateParts}
    (h : matchAt (c :: cs) = some m) : findMatch (c :: cs) = some m := by
  simp [findMatch, h]

theorem toList_mk (l : List Char) : (String.mk l).toList = l := rfl

theorem normalize_pattern (y1 y2 y3 y4 : Char) (mo dy hr mi se : List Char)
    (hy1 : y1.isDigit = true) (hy2 : y2.isDigit = true)
    (hy3 : y3.isDigit = true) (hy4 : y4.isDigit = true)
    (hmo : goodField mo) (hdy : goodField dy) (hhr : goodField hr)
    (hmi : goodField mi) (hse : goodField se) :
    normalize (String.mk ([y1, y2, y3, y4] ++ '/' :: mo ++ '/' :: dy ++
        ' ' :: hr ++ ':' :: mi ++ ':' :: se))
      = String.mk ([y1, y2, y3, y4] ++ '/' :: padStart2 mo ++ '/' :: padStart2 dy ++
        ' ' :: padStart2 hr ++ ':' :: padStart2 mi ++ ':' :: padStart2 se) := by
  have hm := matchAt_pattern y1 y2 y3 y4 mo dy hr mi se hy1 hy2 hy3 hy4 hmo hdy hhr hmi hse
  have hm2 : findMatch ([y1, y2, y3, y4] ++ '/' :: mo ++ '/' :: dy ++
      ' ' :: hr ++ ':' :: mi ++ ':' :: se)
      = some ⟨[y1, y2, y3, y4], mo, dy, hr, mi, se⟩ := findMatch_cons_of_matchAt hm
  unfold normalize
  rw [toList_mk]
  rw [hm2]
  rfl

/-! ## Shapes of the captures produced by a successful match -/

theorem matchField2_shape {delim : Char} {t ds r : List Char}
    (h : matchField2 delim t = some (ds, r)) : goodField ds := by
  rcases t with _ | ⟨a, _ | ⟨b, rest⟩⟩
  · simp [matchField2] at h
  · simp [matchField2] at h
  · rcases rest with _ | ⟨c, rest2⟩ <;> simp only [matchField2] at h <;>
      split_ifs at h with h1 h2 h3 <;>
      first
      | (rw [Option.some.injEq, Prod.mk.injEq] at h
         obtain ⟨rfl, rfl⟩ := h
         refine ⟨by simp, by simp, ?_⟩
         simp_all)
      | simp at h

theorem matchField2Ws_shape {t ds r : List Char}
    (h : matchField2Ws t = some (ds, r)) : goodField ds := by
  rcases t with _ | ⟨a, _ | ⟨b, rest⟩⟩
  · simp [matchField2Ws] at h
  · simp [matchField2Ws] at h
  · rcases rest with _ | ⟨c, rest2⟩ <;> simp only [matchField2Ws] at h <;>
      split_ifs at h with h1 h2 h3 <;>
      first
      | (rw [Option.some.injEq, Prod.mk.injEq] at h
         obtain ⟨rfl, rfl⟩ := h
         refine ⟨by simp, by simp, ?_⟩
         simp_all)
      | simp at h

theorem matchField2End_shape {t ds : List Char}
    (h : matchField2End t = some ds) : goodField ds := by
  rcases t with _ | ⟨a, _ | ⟨b, rest⟩⟩
  · simp [matchField2End] at h
  · simp only [matchField2End] at h
    split_ifs at h with h1 <;>
      first
      | (rw [Option.some.injEq] at h
         subst h
         refine ⟨by simp, by simp, ?_⟩
         simp_all)
      | simp at h
  · simp only [matchField2End] at h
    split_ifs at h with h1 h2 <;>
      first
      | (rw [Option.some.injEq] at h
         subst h
         refine ⟨by simp, by simp, ?_⟩
         simp_all)
      | simp at h

theorem matchAt_shape {t : List Char} {m : DateParts} (h : matchAt t = some m) :
    goodYear m.year ∧ goodField m.month ∧ goodField m.day ∧
    goodField m.hour ∧ goodField m.minute ∧ goodField m.second := by
  rcases t with _ | ⟨y1, _ | ⟨y2, _ | ⟨y3, _ | ⟨y4, _ | ⟨s1, rest⟩⟩⟩⟩⟩ <;>
    simp only [matchAt] at h
  iterate 5 exact absurd h (by simp)
  split_ifs at h with hc
  all_goals try exact absurd h (by simp)
  simp only [Bool.and_eq_true, decide_eq_true_eq] at hc
  obtain ⟨⟨⟨⟨hy1, hy2⟩, hy3⟩, hy4⟩, rfl⟩ := hc
  rcases hm1 : matchField2 '/' rest with _ | ⟨mo, r1⟩ <;> simp only [hm1] at h <;>
    try exact Option.noConfusion h
  rcases hm2 : matchField2Ws r1 with _ | ⟨dy, r2⟩ <;> simp only [hm2] at h <;>
    try exact Option.noConfusion h
  rcases hm3 : matchField2 ':' r2 with _ | ⟨hr, r3⟩ <;> simp only [hm3] at h <;>
    try exact Option.noConfusion h
  rcases hm4 : matchField2 ':' r3 with _ | ⟨mi, r4⟩ <;> simp only [hm4] at h <;>
    try exact Option.noConfusion h
  rcases hm5 : matchField2End r4 with _ | se <;> simp only [hm5] at h <;>
    try exact Option.noConfusion h
  rw [Option.some.injEq] at h
  subst h
  refine ⟨⟨by simp, by simp [hy1, hy2, hy3, hy4]⟩, ?_, ?_, ?_, ?_, ?_⟩
  · exact matchField2_shape hm1
  · exact matchField2Ws_shape hm2
  · exact matchField2_shape hm3
  · exact matchField2_shape hm4
  · exact matchField2End_shape hm5

theorem findMatch_shape {t : List Char} {m : DateParts} (h : findMatch t = some m) :
    goodYear m.year ∧ goodField m.month ∧ goodField m.day ∧
    goodField m.hour ∧ goodField m.minute ∧ goodField m.second := by
  induction t with
  | nil => simp [findMatch] at h
  | cons c cs ih =>
    simp only [findMatch] at h
    rcases hm : matchAt (c :: cs) with _ | m' <;> rw [hm] at h
    · exact ih h
    · rw [Option.some.injEq] at h
      subst h
      exact matchAt_shape hm

theorem padStart2_of_len2 {l : List Char} (h : l.length = 2) : padStart2 l = l := by
  simp [padStart2, h]

theorem goodField_padStart2 {l : List Char} (hf : goodField l) :
    (padStart2 l).length = 2 ∧ goodField (padStart2 l) := by
  rcases goodField_cases hf with ⟨a, rfl, ha⟩ | ⟨a, b, rfl, ha, hb⟩
  · exact ⟨by simp [padStart2], by simp [padStart2], by simp [padStart2], by
      simp [padStart2, ha]⟩
  · exact ⟨by simp [padStart2], by simp [padStart2], by simp [padStart2], by
      simp [padStart2, ha, hb]⟩

/-! ## Claims about DateUtils.normalize -/

/-- C5: for every input of the form `YYYY/M/D H:M:S` (four-digit year, one- or
two-digit month, day, hour, minute, second), `normalize` returns the timestamp
with the five short fields zero-padded to two digits. -/
theorem claim_C5_normalize_zero_pads (y1 y2 y3 y4 : Char) (mo dy hr mi se : List Char)
    (hy1 : y1.isDigit = true) (hy2 : y2.isDigit = true) (hy3 : y3.isDigit = true)
    (hy4 : y4.isDigit = true) (hmo : goodField mo) (hdy : goodField dy)
    (hhr : goodField hr) (hmi : goodField mi) (hse : goodField se) :
    normalize (String.mk ([y1, y2, y3, y4] ++ '/' :: mo ++ '/' :: dy ++
        ' ' :: hr ++ ':' :: mi ++ ':' :: se))
      = String.mk ([y1, y2, y3, y4] ++ '/' :: padStart2 mo ++ '/' :: padStart2 dy ++
        ' ' :: padStart2 hr ++ ':' :: padStart2 mi ++ ':' :: padStart2 se) :=
  normalize_pattern y1 y2 y3 y4 mo dy hr mi se hy1 hy2 hy3 hy4 hmo hdy hhr hmi hse

/-- Witness for C5: `normalize "2024/3/5 9:7:1" = "2024/03/05 09:07:01"`. -/
theorem claim_C5_normalize_zero_pads_witness :
    normalize "2024/3/5 9:7:1" = "2024/03/05 09:07:01" := by
  have h := claim_C5_normalize_zero_pads '2' '0' '2' '4' ['3'] ['5'] ['9'] ['7'] ['1']
    (by decide) (by decide) (by decide) (by decide) (by decide) (by decide) (by decide)
    (by decide) (by decide)
  have e1 : String.mk (['2', '0', '2', '4'] ++ '/' :: ['3'] ++ '/' :: ['5'] ++
      ' ' :: ['9'] ++ ':' :: ['7'] ++ ':' :: ['1']) = "2024/3/5 9:7:1" := by decide
  have e2 : String.mk (['2', '0', '2', '4'] ++ '/' :: padStart2 ['3'] ++ '/' :: padStart2 ['5'] ++
      ' ' :: padStart2 ['9'] ++ ':' :: padStart2 ['7'] ++ ':' :: padStart2 ['1'])
      = "2024/03/05 09:07:01" := by decide
  rw [e1, e2] at h
  exact h

/-- C7: when no substring of the input matches the date pattern, `normalize`
returns its input unchanged. -/
theorem claim_C7_normalize_no_match_identity (s : String)
    (h : findMatch s.toList = none) : normalize s = s := by
  unfold normalize
  rw [h]

/-- Witness for C7: `normalize "not a date"` returns `"not a date"`. -/
theorem claim_C7_normalize_no_match_identity_witness :
    normalize "not a date" = "not a date" :=
  claim_C7_normalize_no_match_identity "not a date" (by decide)

/-- C10: whenever the date pattern matches somewhere in the input, the output
is exactly the reformatted matched timestamp — surrounding text is discarded
and the whitespace run between the date and time parts becomes the single
space of the rebuilt template. -/
theorem claim_C10_normalize_returns_only_match (s : String) (m : DateParts)
    (h : findMatch s.toList = some m) :
    normalize s = String.mk (m.year ++ '/' :: padStart2 m.month ++ '/' :: padStart2 m.day ++
      ' ' :: padStart2 m.hour ++ ':' :: padStart2 m.minute ++ ':' :: padStart2 m.second) := by
  unfold normalize
  rw [h]
  rfl

/-- Witness for C10: text before and after the match and a tab run between
date and time are all replaced by the bare reformatted timestamp. -/
theorem claim_C10_normalize_returns_only_match_witness :
    normalize "foo 2024/3/5\t\t9:7:1 bar" = "2024/03/05 09:07:01" := by
  have h := claim_C10_normalize_returns_only_match "foo 2024/3/5\t\t9:7:1 bar"
    ⟨['2', '0', '2', '4'], ['3'], ['5'], ['9'], ['7'], ['1']⟩ (by decide)
  rw [h]
  decide

theorem length_four_shape {l : List Char} (h : l.length = 4) :
    ∃ a b c d, l = [a, b, c, d] := by
  rcases l with _ | ⟨a, _ | ⟨b, _ | ⟨c, _ | ⟨d, _ | ⟨e, tl⟩⟩⟩⟩⟩ <;> simp at h
  exact ⟨a, b, c, d, rfl⟩

/-- C6: `normalize` is idempotent on every string the date pattern matches. -/
theorem claim_C6_normalize_idempotent (s : String)
    (h : (findMatch s.toList).isSome = true) :
    normalize (normalize s) = normalize s := by
  obtain ⟨m, hm⟩ := Option.isSome_iff_exists.mp h
  obtain ⟨⟨hylen, hyall⟩, hmo, hdy, hhr, hmi, hse⟩ := findMatch_shape hm
  have hnorm : normalize s = String.mk (formatParts m) := by
    unfold normalize
    rw [hm]
  rw [hnorm]
  obtain ⟨y1, y2, y3, y4, hy⟩ := length_four_shape hylen
  rw [hy] at hyall
  simp only [List.all_cons, List.all_nil, Bool.and_eq_true] at hyall
  obtain ⟨h1, h2, h3, h4, -⟩ := hyall
  have hfp : formatParts m = [y1, y2, y3, y4] ++ '/' :: padStart2 m.month ++
      '/' :: padStart2 m.day ++ ' ' :: padStart2 m.hour ++
      ':' :: padStart2 m.minute ++ ':' :: padStart2 m.second := by
    rw [formatParts, hy]
  rw [hfp]
  rw [normalize_pattern y1 y2 y3 y4 (padStart2 m.month) (padStart2 m.day)
    (padStart2 m.hour) (padStart2 m.minute) (padStart2 m.second) h1 h2 h3 h4
    (goodField_padStart2 hmo).2 (goodField_padStart2 hdy).2 (goodField_padStart2 hhr).2
    (goodField_padStart2 hmi).2 (goodField_padStart2 hse).2]
  rw [padStart2_of_len2 (goodField_padStart2 hmo).1,
    padStart2_of_len2 (goodField_padStart2 hdy).1,
    padStart2_of_len2 (goodField_padStart2 hhr).1,
    padStart2_of_len2 (goodField_padStart2 hmi).1,
    padStart2_of_len2 (goodField_padStart2 hse).1]

/-- Witness for C6: idempotence at a concrete matching input. -/
theorem claim_C6_normalize_idempotent_witness :
    normalize (normalize "x 2024/3/5 9:7:1!") = normalize "x 2024/3/5 9:7:1!" :=
  claim_C6_normalize_idempotent "x 2024/3/5 9:7:1!" (by decide)

/-! ## Facts about extraction -/

theorem all_imp_chars {p q : Char → Bool} {l : List Char} (h : l.all p = true)
    (himp : ∀ c, p c = true → q c = true) : l.all q = true := by
  simp only [List.all_eq_true] at h ⊢
  intro c hc
  exact himp c (h c hc)

theorem dropWhile_eq_self_of_all {p : Char → Bool} {l : List Char}
    (h : l.all (fun c => !p c) = true) : l.dropWhile p = l := by
  rcases l with _ | ⟨a, tl⟩
  · rfl
  · simp only [List.all_cons, Bool.and_eq_true, Bool.not_eq_true'] at h
    simp [List.dropWhile_cons, h.1]

theorem takeWhile_eq_self_of_all {p : Char → Bool} {l : List Char}
    (h : l.all p = true) : l.takeWhile p = l := by
  induction l with
  | nil => rfl
  | cons a tl ih =>
    simp only [List.all_cons, Bool.and_eq_true] at h
    simp [List.takeWhile_cons, h.1, ih h.2]

theorem takeWhile_all (p : Char → Bool) (l : List Char) :
    (l.takeWhile p).all p = true := by
  induction l with
  | nil => rfl
  | cons a tl ih =>
    cases ha : p a with
    | false => simp [List.takeWhile_cons, ha]
    | true => simp [List.takeWhile_cons, ha, ih]

theorem jsTrim_eq_self_of_all {l : List Char}
    (h : l.all (fun c => !isJsWs c) = true) : jsTrim l = l := by
  have h2 : l.reverse.all (fun c => !isJsWs c) = true := by
    simp only [List.all_eq_true] at h ⊢
    intro c hc
    exact h c (List.mem_reverse.mp hc)
  rw [jsTrim, dropWhile_eq_self_of_all h, dropWhile_eq_self_of_all h2,
    List.reverse_reverse]

theorem scanFor_some {label : List Char} {tail : List Char → Option (List Char)}
    {l cap : List Char} (h : scanFor label tail l = some cap) :
    ∃ t, tail t = some cap := by
  induction l with
  | nil => simp [scanFor] at h
  | cons c cs ih =>
    simp only [scanFor] at h
    split_ifs at h with hpre
    · rcases ht : tail ((c :: cs).drop label.length) with _ | cap2 <;>
        simp only [ht] at h
      · exact ih h
      · rw [Option.some.injEq] at h
        subst h
        exact ⟨_, ht⟩
    · exact ih h

theorem matchAmountTail_chars {t cap : List Char}
    (h : matchAmountTail t = some cap) :
    cap ≠ [] ∧ cap.all isAmountChar = true := by
  simp only [matchAmountTail] at h
  split_ifs at h with hemp
  all_goals try exact Option.noConfusion h
  rcases hrest : ((t.dropWhile isJsWs).dropWhile isAmountChar).dropWhile isJsWs with
    _ | ⟨c, cs⟩ <;> simp only [hrest] at h
  all_goals try exact Option.noConfusion h
  split_ifs at h with hc
  all_goals try exact Option.noConfusion h
  rw [Option.some.injEq] at h
  subst h
  refine ⟨fun he => ?_, takeWhile_all _ _⟩
  rw [he] at hemp
  simp at hemp

theorem searchAmount_chars {body cap : List Char}
    (h : searchAmount body = some cap) :
    cap ≠ [] ∧ cap.all isAmountChar = true := by
  obtain ⟨t, ht⟩ := scanFor_some h
  exact matchAmountTail_chars ht

theorem parseIntDec_digits {ds : List Char} (hne : ds ≠ [])
    (hall : ds.all Char.isDigit = true) :
    parseIntDec ds = some (digitsToNat ds : Int) := by
  have hnw : ds.all (fun c => !isJsWs c) = true :=
    all_imp_chars hall (fun c hc => by simp [digit_not_ws hc])
  have hdw : ds.dropWhile isJsWs = ds := dropWhile_eq_self_of_all hnw
  rcases hshape : ds with _ | ⟨c, rest⟩
  · exact absurd hshape hne
  · have hc : c.isDigit = true := by
      rw [hshape] at hall
      simp only [List.all_cons, Bool.and_eq_true] at hall
      exact hall.1
    have hcm : ¬(c = '-') := by
      rintro rfl
      exact absurd hc (by decide)
    have hcp : ¬(c = '+') := by
      rintro rfl
      exact absurd hc (by decide)
    rw [hshape] at hdw hall
    simp [parseIntDec, hdw, hcm, hcp, takeWhile_eq_self_of_all hall]

theorem filter_amount_digits {l : List Char} (h : l.all isAmountChar = true) :
    (l.filter (fun c => c ≠ ',')).all Char.isDigit = true := by
  simp only [List.all_eq_true, List.mem_filter] at h ⊢
  intro c hc
  have ha := h c hc.1
  simp only [isAmountChar, Bool.or_eq_true, decide_eq_true_eq] at ha
  rcases ha with ha | rfl
  · exact ha
  · simp at hc

/-! ## Claims about extraction -/

/-- C3: extraction succeeds only when all four labeled patterns match and the
separator-stripped amount parses as an integer; otherwise it yields `none`,
and then the scan loop only logs a warning — the callback is never invoked
and no message is marked read.  (`extractDonationDetails` is a total
function, so no exception can escape extraction.) -/
theorem claim_C3_extraction_requires_all_fields :
    (∀ body : String,
      (searchDate body.toList = none ∨ searchName body.toList = none ∨
       searchAmount body.toList = none ∨ searchFreq body.toList = none) →
      extractDonationDetails body = none) ∧
    (∀ (body : String) (am : List Char), searchAmount body.toList = some am →
      parseIntDec ((jsTrim am).filter (fun c => c ≠ ',')) = none →
      extractDonationDetails body = none) ∧
    (∀ (env : Env) (cb : DonationDetails → String → List Event × Bool) (m : Message),
      env.msgFails m.id = false → extractDonationDetails m.body = none →
      processOneMessage env cb m =
        [Event.logWarn ("寄付情報の抽出に失敗しました (messageId: " ++ m.id ++ ")")]) ∧
    (∀ (env : Env) (cb : DonationDetails → String → List Event × Bool) (m : Message)
       (i : String), env.msgFails m.id = false → extractDonationDetails m.body = none →
      Event.markRead i ∉ processOneMessage env cb m) := by
  have hnone : ∀ body : String,
      (searchDate body.toList = none ∨ searchName body.toList = none ∨
       searchAmount body.toList = none ∨ searchFreq body.toList = none) →
      extractDonationDetails body = none := by
    intro body h
    rcases hd : searchDate body.toList with _ | dm <;>
      rcases hn : searchName body.toList with _ | nm <;>
        rcases ha : searchAmount body.toList with _ | am <;>
          rcases hf : searchFreq body.toList with _ | fm <;>
            simp only [extractDonationDetails, hd, hn, ha, hf]
    rcases h with h | h | h | h
    · exact absurd (hd.symm.trans h) (by simp)
    · exact absurd (hn.symm.trans h) (by simp)
    · exact absurd (ha.symm.trans h) (by simp)
    · exact absurd (hf.symm.trans h) (by simp)
  have hwarn : ∀ (env : Env) (cb : DonationDetails → String → List Event × Bool)
      (m : Message), env.msgFails m.id = false → extractDonationDetails m.body = none →
      processOneMessage env cb m =
        [Event.logWarn ("寄付情報の抽出に失敗しました (messageId: " ++ m.id ++ ")")] := by
    intro env cb m h1 h2
    simp [processOneMessage, h1, h2]
  refine ⟨hnone, ?_, hwarn, ?_⟩
  · intro body am ha hp
    rcases hd : searchDate body.toList with _ | dm <;>
      rcases hn : searchName body.toList with _ | nm <;>
        rcases hf : searchFreq body.toList with _ | fm <;>
          first
          | exact hnone body (Or.inl hd)
          | exact hnone body (Or.inr (Or.inl hn))
          | exact hnone body (Or.inr (Or.inr (Or.inr hf)))
          | simp only [extractDonationDetails, hd, hn, ha, hf, hp]
  · intro env cb m i h1 h2
    rw [hwarn env cb m h1 h2]
    simp

/-- Witness for C3: a body missing the frequency label extracts to `none`. -/
theorem claim_C3_extraction_requires_all_fields_witness :
    extractDonationDetails "支援受付日時: 2024/3/5 9:7:1\n支援付者名: 山田\n支援金額: 12,345 円" = none :=
  claim_C3_extraction_requires_all_fields.1 _ (Or.inr (Or.inr (Or.inr (by decide))))

/-- C4: when extraction succeeds, the amount is the non-negative integer value
of the captured digits with the commas removed, the name is the captured name
text cut before the first run of two consecutive whitespace characters and
trimmed, and the frequency is the captured text cut at the first space and
trimmed. -/
theorem claim_C4_extraction_field_values (body : String) (d : DonationDetails)
    (h : extractDonationDetails body = some d) :
    0 ≤ d.amount ∧
    (∃ am, searchAmount body.toList = some am ∧
      d.amount = (digitsToNat (am.filter (fun c => c ≠ ',')) : Int)) ∧
    (∃ nm, searchName body.toList = some nm ∧
      d.name = String.mk (jsTrim (takeBeforeDoubleWs nm))) ∧
    (∃ fm, searchFreq body.toList = some fm ∧
      d.frequency = String.mk (jsTrim (takeBeforeSpace fm))) := by
  rcases hd : searchDate body.toList with _ | dm <;>
    rcases hn : searchName body.toList with _ | nm <;>
      rcases ha : searchAmount body.toList with _ | am <;>
        rcases hf : searchFreq body.toList with _ | fm <;>
          simp only [extractDonationDetails, hd, hn, ha, hf] at h <;>
            try exact Option.noConfusion h
  obtain ⟨hne, hall⟩ := searchAmount_chars ha
  have htrim : jsTrim am = am := jsTrim_eq_self_of_all
    (all_imp_chars hall (fun c hc => by simp [amountChar_not_ws hc]))
  rw [htrim] at h
  rcases hp : parseIntDec (am.filter (fun c => c ≠ ',')) with _ | v <;>
    simp only [hp] at h <;> try exact Option.noConfusion h
  rw [Option.some.injEq] at h
  subst h
  have hfilne : am.filter (fun c => c ≠ ',') ≠ [] := by
    intro he
    rw [he] at hp
    simp [parseIntDec] at hp
  have hveq : v = (digitsToNat (am.filter (fun c => c ≠ ',')) : Int) :=
    Option.some.inj
      (hp.symm.trans (parseIntDec_digits hfilne (filter_amount_digits hall)))
  refine ⟨?_, ⟨am, rfl, hveq⟩, ⟨nm, rfl, rfl⟩, ⟨fm, rfl, rfl⟩⟩
  rw [show ((⟨normalize (String.mk (jsTrim dm)),
      String.mk (jsTrim (takeBeforeDoubleWs nm)), v,
      String.mk (jsTrim (takeBeforeSpace fm))⟩ : DonationDetails)).amount = v from rfl, hveq]
  exact Int.natCast_nonneg _

/-- Witness for C4: a full body with amount text `12,345円` yields the integer
12345, the name truncated before the double-space run, and the frequency
truncated at the first space. -/
theorem claim_C4_extraction_field_values_witness :
    0 ≤ (12345 : Int) ∧
    extractDonationDetails
        "支援受付日時: 2024/3/5 9:7:1\n支援付者名: 山田 太郎  ABC\n支援金額: 12,345 円\n支援頻度: 毎月 xyz"
      = some ⟨"2024/03/05 09:07:01", "山田 太郎", 12345, "毎月"⟩ := by
  have h := claim_C4_extraction_field_values
    "支援受付日時: 2024/3/5 9:7:1\n支援付者名: 山田 太郎  ABC\n支援金額: 12,345 円\n支援頻度: 毎月 xyz"
    ⟨"2024/03/05 09:07:01", "山田 太郎", 12345, "毎月"⟩ (by decide)
  exact ⟨h.1, by decide⟩

/-! ## Orchestration facts -/

theorem checkForNewDonations_noThrow (env : Env) :
    (checkForNewDonations env).2 = false := by
  unfold checkForNewDonations
  split
  · rfl
  · dsimp only
    split <;> rfl

theorem runApp_noThrow (env : Env) : (runApp env).2 = false := by
  have hc := checkForNewDonations_noThrow env
  unfold runApp
  rcases h : checkForNewDonations env with ⟨es, t⟩
  rw [h] at hc
  split <;> simp [h] <;> exact hc

theorem processMessages_append (env : Env)
    (cb : DonationDetails → String → List Event × Bool) (l1 l2 : List Message) :
    processMessages env cb (l1 ++ l2) =
      processMessages env cb l1 ++ processMessages env cb l2 := by
  induction l1 with
  | nil => simp [processMessages]
  | cons m rest ih => simp [processMessages, ih]

theorem send_count_markRead (env : Env) (url date : String) (amount : Int)
    (frequency : String) (i : String) :
    List.count (Event.markRead i)
      (sendDonationNotification env url date amount frequency).1 = 0 := by
  unfold sendDonationNotification
  split <;> simp [List.count_cons]

theorem record_count_markRead (env : Env) (date name : String) (amount : Int)
    (frequency : String) (i : String) :
    List.count (Event.markRead i)
      (recordDonation env date name amount frequency).1 = 0 := by
  unfold recordDonation getSheet
  cases hof : env.openFails <;> rcases hsh : env.sheetByName with _ | sh <;>
    rcases hjd : env.jsDateOf date with _ | tv <;> simp [List.count_cons] <;>
      split <;> simp [List.count_cons]

/-! ## Claims about the orchestrator -/

/-- C9: `ensureHeaders` issues the fixed four-column header append exactly
when the sheet lookup succeeds and the sheet has zero rows; it never
propagates an exception (neither a lookup nor an append failure), and the
full app run never throws either, so header maintenance cannot block service
construction or donation processing. -/
theorem claim_C9_ensureHeaders (env : Env) :
    (ensureHeaders env).2 = false ∧
    (Event.appendRow headerRow ∈ (ensureHeaders env).1 ↔
      env.openFails = false ∧ ∃ sh, env.sheetByName = some sh ∧ sh.lastRow = 0) ∧
    (runApp env).2 = false := by
  refine ⟨?_, ?_, runApp_noThrow env⟩
  · unfold ensureHeaders getSheet
    cases hof : env.openFails <;> rcases hsh : env.sheetByName with _ | sh
    · simp [hof, hsh]
    · rcases sh with ⟨lr⟩
      cases hlr : (lr == 0) <;> cases haf : env.appendFails headerRow <;>
        simp [hof, hsh, hlr, haf]
    · simp [hof, hsh]
    · simp [hof, hsh]
  · unfold ensureHeaders getSheet
    cases hof : env.openFails <;> rcases hsh : env.sheetByName with _ | sh
    · simp [hof, hsh]
    · rcases sh with ⟨lr⟩
      cases hlr : (lr == 0) <;> cases haf : env.appendFails headerRow <;>
        simp [hof, hsh, hlr, haf] <;> simp_all
    · simp [hof, hsh]
    · simp [hof, hsh]

/-- Witness for C9: with an existing empty sheet, the header append happens
and nothing is thrown. -/
theorem claim_C9_ensureHeaders_witness :
    Event.appendRow headerRow ∈
      (ensureHeaders ⟨⟨some "url", some "sid", some "sheet"⟩, Except.ok [],
        fun _ => false, fun _ _ _ => false, false, some ⟨0⟩,
        fun _ => none, fun _ => false, fun _ => false⟩).1 := by
  have h := claim_C9_ensureHeaders ⟨⟨some "url", some "sid", some "sheet"⟩,
    Except.ok [], fun _ => false, fun _ _ _ => false, false, some ⟨0⟩,
    fun _ => none, fun _ => false, fun _ => false⟩
  exact h.2.1.mpr ⟨rfl, ⟨0⟩, rfl, rfl⟩

/-- C2: when the webhook URL setting is absent, `checkForNewDonations` only
logs a warning: no mailbox search, no notification, no sheet append and no
mark-read happens — in particular ledger recording alone never proceeds. -/
theorem claim_C2_no_webhook_no_action (env : Env)
    (h : env.config.slackWebhookUrl = none) :
    checkForNewDonations env =
      ([Event.logWarn "Slack Webhook URL が設定されていません"], false) ∧
    (∀ q, Event.search q ∉ (checkForNewDonations env).1) ∧
    (∀ u d a f, Event.notifyPost u d a f ∉ (checkForNewDonations env).1) ∧
    (∀ row, Event.appendRow row ∉ (checkForNewDonations env).1) ∧
    (∀ i, Event.markRead i ∉ (checkForNewDonations env).1) := by
  have hcv : isConfigValid env.config = false := by
    simp [isConfigValid, truthy, h]
  have htr : checkForNewDonations env =
      ([Event.logWarn "Slack Webhook URL が設定されていません"], false) := by
    unfold checkForNewDonations
    rw [hcv]
    rfl
  refine ⟨htr, ?_, ?_, ?_, ?_⟩ <;> intro _ <;> try intro _ _ _
  all_goals rw [htr]; simp

/-- C1: `processDonation` never propagates; it marks the message read exactly
once iff every configured sink call succeeded (notify when the Slack service
exists, record when the Sheets service exists); when any configured sink
throws, `markRead` is never emitted; and a Slack notification that succeeded
before a later failure stays in the trace — no rollback. -/
theorem claim_C1_markRead_iff_sinks (env : Env) (slackSvc : Option String)
    (sheetsSvc : Option (String × String)) (d : DonationDetails) (mid : String) :
    (processDonation env slackSvc sheetsSvc d mid).2 = false ∧
    (List.count (Event.markRead mid) (processDonation env slackSvc sheetsSvc d mid).1 =
      if (slackSvc.isNone || !env.slackFails d.date d.amount d.frequency) &&
         (sheetsSvc.isNone || !(recordDonation env d.date d.name d.amount d.frequency).2)
      then 1 else 0) ∧
    (Event.markRead mid ∈ (processDonation env slackSvc sheetsSvc d mid).1 ↔
      ((slackSvc.isNone || !env.slackFails d.date d.amount d.frequency) &&
       (sheetsSvc.isNone || !(recordDonation env d.date d.name d.amount d.frequency).2))
        = true) ∧
    (∀ url, slackSvc = some url → env.slackFails d.date d.amount d.frequency = false →
      Event.notifyPost url d.date (toLocaleStringInt d.amount ++ "円") d.frequency ∈
        (processDonation env slackSvc sheetsSvc d mid).1) := by
  have hrc := record_count_markRead env d.date d.name d.amount d.frequency mid
  rcases hr : recordDonation env d.date d.name d.amount d.frequency with ⟨es2, t2⟩
  rw [hr] at hrc
  have hrc2 : List.count (Event.markRead mid) es2 = 0 := hrc
  have hrm : Event.markRead mid ∉ es2 := List.count_eq_zero.mp hrc2
  unfold processDonation sendDonationNotification
  rcases slackSvc with _ | url <;> rcases sheetsSvc with _ | svc <;>
    cases hsf : env.slackFails d.date d.amount d.frequency <;>
      cases hmf : env.markReadFails mid <;>
        cases t2 <;>
          simp [hr, hsf, hmf, hrc2, hrm, List.count_append, List.count_cons]

/-- Witness for C1: with both sinks configured and both succeeding, the
message is marked read exactly once. -/
theorem claim_C1_markRead_iff_sinks_witness :
    List.count (Event.markRead "m1")
      (processDonation
        ⟨⟨some "url", some "sid", some "sheet"⟩, Except.ok [], fun _ => false,
         fun _ _ _ => false, false, some ⟨3⟩, fun _ => none, fun _ => false,
         fun _ => false⟩
        (some "url") (some ("sid", "sheet"))
        ⟨"2024/03/05 09:07:01", "山田", 12345, "毎月"⟩ "m1").1 = 1 := by
  have h := claim_C1_markRead_iff_sinks
    ⟨⟨some "url", some "sid", some "sheet"⟩, Except.ok [], fun _ => false,
     fun _ _ _ => false, false, some ⟨3⟩, fun _ => none, fun _ => false,
     fun _ => false⟩
    (some "url") (some ("sid", "sheet"))
    ⟨"2024/03/05 09:07:01", "山田", 12345, "毎月"⟩ "m1"
  rw [h.2.1]
  decide

/-- Witness for C2: spreadsheet settings present but webhook URL absent — the
run is a single warning log even though messages are waiting. -/
theorem claim_C2_no_webhook_no_action_witness :
    checkForNewDonations
      ⟨⟨none, some "sid", some "sheet"⟩,
       Except.ok [⟨"m1", "支援受付日時: 2024/3/5 9:7:1"⟩], fun _ => false,
       fun _ _ _ => false, false, some ⟨0⟩, fun _ => none, fun _ => false,
       fun _ => false⟩
      = ([Event.logWarn "Slack Webhook URL が設定されていません"], false) :=
  (claim_C2_no_webhook_no_action
    ⟨⟨none, some "sid", some "sheet"⟩,
     Except.ok [⟨"m1", "支援受付日時: 2024/3/5 9:7:1"⟩], fun _ => false,
     fun _ _ _ => false, false, some ⟨0⟩, fun _ => none, fun _ => false,
     fun _ => false⟩ rfl).1

/-- C8: failures are isolated.  `checkForNewDonations` never propagates an
exception; the scan of a message list is the concatenation of independent
per-message traces, so one message's failure cannot affect the others; a
message whose retrieval throws contributes only an error log; a callback
that throws is caught and logged after its partial trace; and when the
top-level search throws, the run ends with an error log instead of crashing. -/
theorem claim_C8_failures_isolated (env : Env)
    (cb : DonationDetails → String → List Event × Bool) :
    (checkForNewDonations env).2 = false ∧
    (∀ pre m post, processMessages env cb (pre ++ m :: post) =
      processMessages env cb pre ++ processOneMessage env cb m ++
        processMessages env cb post) ∧
    (∀ m : Message, env.msgFails m.id = true →
      processOneMessage env cb m =
        [Event.logError "メッセージ処理中にエラーが発生しました"]) ∧
    (∀ (m : Message) (d : DonationDetails), env.msgFails m.id = false →
      extractDonationDetails m.body = some d → (cb d m.id).2 = true →
      processOneMessage env cb m =
        (cb d m.id).1 ++ [Event.logError "メッセージ処理中にエラーが発生しました"]) ∧
    (env.searchResult = Except.error () → isConfigValid env.config = true →
      (checkForNewDonations env).1 =
        [Event.logInfo "新規寄付通知のチェックを開始します", Event.search SEARCH_QUERY,
         Event.logError "寄付通知のチェック中にエラーが発生しました"]) := by
  refine ⟨checkForNewDonations_noThrow env, ?_, ?_, ?_, ?_⟩
  · intro pre m post
    rw [processMessages_append]
    simp [processMessages]
  · intro m h
    simp [processOneMessage, h]
  · intro m d h1 h2 h3
    rcases hcb : cb d m.id with ⟨es, t⟩
    rw [hcb] at h3
    simp only at h3
    subst h3
    simp [processOneMessage, h1, h2, hcb]
  · intro hs hcv
    unfold checkForNewDonations processNewDonations
    rw [hs, hcv]
    rfl

/-- Witness for C8: a three-message list splits into the three independent
per-message traces around a message whose retrieval fails. -/
theorem claim_C8_failures_isolated_witness :
    processMessages
      ⟨⟨some "url", none, none⟩, Except.ok [], fun i => i == "b",
       fun _ _ _ => false, false, none, fun _ => none, fun _ => false,
       fun _ => false⟩
      (fun _ _ => ([], false)) [⟨"a", ""⟩, ⟨"b", ""⟩, ⟨"c", ""⟩] =
      processMessages
        ⟨⟨some "url", none, none⟩, Except.ok [], fun i => i == "b",
         fun _ _ _ => false, false, none, fun _ => none, fun _ => false,
         fun _ => false⟩
        (fun _ _ => ([], false)) [⟨"a", ""⟩] ++
      processOneMessage
        ⟨⟨some "url", none, none⟩, Except.ok [], fun i => i == "b",
         fun _ _ _ => false, false, none, fun _ => none, fun _ => false,
         fun _ => false⟩
        (fun _ _ => ([], false)) ⟨"b", ""⟩ ++
      processMessages
        ⟨⟨some "url", none, none⟩, Except.ok [], fun i => i == "b",
         fun _ _ _ => false, false, none, fun _ => none, fun _ => false,
         fun _ => false⟩
        (fun _ _ => ([], false)) [⟨"c", ""⟩] :=
  (claim_C8_failures_isolated
    ⟨⟨some "url", none, none⟩, Except.ok [], fun i => i == "b",
     fun _ _ _ => false, false, none, fun _ => none, fun _ => false,
     fun _ => false⟩
    (fun _ _ => ([], false))).2.1 [⟨"a", ""⟩] ⟨"b", ""⟩ [⟨"c", ""⟩]

end SyncableDonation
